import Mathlib

set_option maxRecDepth 100000

/-!
Verification of the receipt-processor core (Main.go).

The development shallowly embeds the two core components of the service:
the points calculator `computePoints` and the identifier-keyed receipt
store (`storeInsert` / `storeGet` together with the `processReceipt`
submission path).  Strings are handled through their character lists so
that every helper mirrors the corresponding Go library call
(`strings.Split`, `strings.TrimSpace`, `strconv.Atoi`,
`strconv.ParseFloat`, `strings.HasSuffix`).  Go's float64 values are
modelled by `GoFloat`: exact rational arithmetic over `Frac` pairs for
finite values plus the infinities and NaN.  `ParseFloat` is modelled in
full — special strings, decimal and hexadecimal forms, the underscore
placement rule, overflow to `±Inf` with a discarded range error, and
subnormal underflow.  A parsed value is rounded to the nearest binary64
(round-to-nearest, ties-to-even), products are rounded the same way,
and `math.Mod` — which is exact on binary64 — is the exact rational
remainder under truncating division, NaN on non-finite input.
-/

/-- One purchased line of a receipt (Go struct `Item`). -/
structure Item where
  description : String
  price : String
deriving DecidableEq

/-- A purchase receipt (Go struct `Receipt`). -/
structure Receipt where
  storeName : String
  dateOfPurchase : String
  timeOfPurchase : String
  totalAmount : String
  purchasedItems : List Item
deriving DecidableEq

/-! ### Go string helpers -/

/-- Go `isAlphanumeric` from Main.go: ASCII letters and digits only. -/
def isAlphanumeric (char : Char) : Bool :=
  (decide ('a' ≤ char) && decide (char ≤ 'z')) ||
  (decide ('A' ≤ char) && decide (char ≤ 'Z')) ||
  (decide ('0' ≤ char) && decide (char ≤ '9'))

/-- Go `strings.Split` with a one-character separator: splits the rune
list at every occurrence of `sep`; always returns a non-empty list. -/
def goSplit (sep : Char) : List Char → List (List Char)
  | [] => [[]]
  | c :: rest =>
    match goSplit sep rest with
    | [] => [[]]
    | h :: t => if c == sep then [] :: h :: t else (c :: h) :: t

/-- The whitespace test of Go `unicode.IsSpace` restricted to the Latin-1
characters it recognises (space, tab, newline, vertical tab, form feed,
carriage return, NEL, no-break space). -/
def isSpaceGo (c : Char) : Bool :=
  c == ' ' || c == '\t' || c == '\n' || c == '\x0b' || c == '\x0c' ||
  c == '\r' || c == '\x85' || c == '\xa0'

/-- Go `strings.TrimSpace` on a rune list. -/
def trimSpace (cs : List Char) : List Char :=
  ((cs.dropWhile isSpaceGo).reverse.dropWhile isSpaceGo).reverse

/-- Number of bytes a character occupies in UTF-8. -/
def charUtf8Len (c : Char) : Nat :=
  if c.toNat < 128 then 1
  else if c.toNat < 2048 then 2
  else if c.toNat < 65536 then 3
  else 4

/-- Go `len` on a string: the UTF-8 byte length. -/
def goLen (cs : List Char) : Nat := (cs.map charUtf8Len).sum

/-- Go `strings.HasSuffix`. -/
def hasSuffixGo (s tail : String) : Bool := List.isSuffixOf tail.data s.data

/-- ASCII digit test. -/
def isDigitGo (c : Char) : Bool := decide ('0' ≤ c) && decide (c ≤ '9')

/-- Whether every character is an ASCII digit. -/
def allDigits (cs : List Char) : Bool := cs.all isDigitGo

/-- Decimal value of a digit list. -/
def digitsToNat (cs : List Char) : Nat :=
  cs.foldl (fun n c => n * 10 + (c.toNat - 48)) 0

/-- Strip an optional leading sign; `true` means negative. -/
def parseSignGo : List Char → Bool × List Char
  | '-' :: cs => (true, cs)
  | '+' :: cs => (false, cs)
  | cs => (false, cs)

/-- Go `strconv.Atoi` with the error discarded, as Main.go does
(`day, _ := strconv.Atoi(...)`): a syntactically malformed string
yields 0, and a syntactically valid value outside the 64-bit range is
returned saturated to maxInt64 / minInt64 alongside the discarded
range error. -/
def atoiGo (cs : List Char) : ℤ :=
  let (neg, ds) := parseSignGo cs
  if !ds.isEmpty && allDigits ds then
    let v : ℤ := if neg then -(digitsToNat ds : ℤ) else (digitsToNat ds : ℤ)
    if v > 2 ^ 63 - 1 then 2 ^ 63 - 1
    else if v < -(2 ^ 63) then -(2 ^ 63)
    else v
  else 0

/-! ### binary64 model

Exact rational arithmetic over unreduced numerator/denominator pairs
(the denominator is kept positive by construction).  Every operation
is plain `ℤ`/`ℕ` arithmetic, so concrete values reduce in the kernel. -/

/-- An unreduced fraction `num / den` with `den > 0` by construction. -/
structure Frac where
  num : ℤ
  den : ℤ
deriving DecidableEq

/-- The fraction of an integer. -/
def fofInt (n : ℤ) : Frac := ⟨n, 1⟩

/-- The fraction of a natural number. -/
def fofNat (n : ℕ) : Frac := ⟨(n : ℤ), 1⟩

/-- Negation. -/
def fneg (q : Frac) : Frac := ⟨-q.num, q.den⟩

/-- Addition. -/
def fadd (a b : Frac) : Frac := ⟨a.num * b.den + b.num * a.den, a.den * b.den⟩

/-- Subtraction. -/
def fsub (a b : Frac) : Frac := ⟨a.num * b.den - b.num * a.den, a.den * b.den⟩

/-- Multiplication. -/
def fmulx (a b : Frac) : Frac := ⟨a.num * b.num, a.den * b.den⟩

/-- Division (sign moved into the numerator to keep `den` positive). -/
def fdivx (a b : Frac) : Frac :=
  let n := a.num * b.den
  let d := a.den * b.num
  if d < 0 then ⟨-n, -d⟩ else ⟨n, d⟩

/-- Whether the fraction denotes 0 (the denominator is positive, so
this is exactly the float comparison `== 0`). -/
def fIsZero (q : Frac) : Bool := q.num == 0

/-- Order comparison by cross-multiplication (positive denominators). -/
def fle (a b : Frac) : Bool := decide (a.num * b.den ≤ b.num * a.den)

/-- Strict order comparison by cross-multiplication. -/
def flt (a b : Frac) : Bool := decide (a.num * b.den < b.num * a.den)

/-- Floor of a fraction (flooring integer division, `den > 0`). -/
def ffloor (q : Frac) : ℤ := Int.fdiv q.num q.den

/-- Truncation of a fraction toward zero, as Go's float-to-int
conversion and `math.Mod` use. -/
def ftrunc (q : Frac) : ℤ := Int.tdiv q.num q.den

/-- Ceiling of a fraction: Go `int(math.Ceil x)` (Ceil is exact on
binary64 and the conversion of an integral value is exact). -/
def fceil (q : Frac) : ℤ := -(ffloor (fneg q))

/-- Fuel-driven binary exponentiation (logarithmic recursion depth, so
the large exponents of the overflow checks and of extreme decimal
exponents reduce without exhausting the stack). -/
def powAux : Nat → Nat → Nat → Nat
  | 0, _, _ => 1
  | fuel + 1, b, n =>
    if n = 0 then 1
    else if n % 2 = 1 then b * powAux fuel (b * b) (n / 2)
    else powAux fuel (b * b) (n / 2)

/-- `b ^ n` through `powAux` (the exponent itself is ample fuel). -/
def powNat (b n : Nat) : Nat := powAux n b n

/-- `2 ^ e` as a fraction for an integer exponent. -/
def pow2 (e : ℤ) : Frac :=
  if 0 ≤ e then ⟨(powNat 2 e.toNat : ℤ), 1⟩ else ⟨1, (powNat 2 (-e).toNat : ℤ)⟩

/-- Fuel-driven base-2 logarithm on `ℕ` by repeated halving
(kernel-reducible; used only below `2^256`, so at most 256 deep). -/
def log2fuel : Nat → Nat → Nat
  | 0, _ => 0
  | fuel + 1, n => if n < 2 then 0 else log2fuel fuel (n / 2) + 1

/-- `2 ^ 256`, the chunk used to keep the logarithm shallow. -/
def chunk256 : Nat := powNat 2 256

/-- Base-2 logarithm with 256-bit chunking: numbers of thousands of
bits reduce in a few dozen recursion steps. -/
def log2Chunks : Nat → Nat → Nat
  | 0, _ => 0
  | fuel + 1, n =>
    if n < chunk256 then log2fuel n n
    else 256 + log2Chunks fuel (n / chunk256)

/-- `⌊log₂ n⌋` for `n > 0`. -/
def natLog2 (n : Nat) : Nat := log2Chunks n n

/-- `⌊log₂ q⌋` for a positive fraction. -/
def floorLog2F (q : Frac) : ℤ :=
  let e0 : ℤ := (natLog2 q.num.natAbs : ℤ) - (natLog2 q.den.natAbs : ℤ)
  if fle (pow2 e0) q then e0 else e0 - 1

/-- Round a fraction to the nearest integer, ties to even. -/
def roundNE (q : Frac) : ℤ :=
  let f := ffloor q
  let frac := fsub q (fofInt f)
  if flt frac ⟨1, 2⟩ then f
  else if flt ⟨1, 2⟩ frac then f + 1
  else if f % 2 = 0 then f else f + 1

/-- Round a fraction to the nearest binary64 value (round-to-nearest,
ties-to-even), including the subnormal range: below `2^-1022` the unit
in the last place stays fixed at `2^-1074`, so tiny values round to a
subnormal or to 0 exactly as Go's `ParseFloat` returns them (the range
error is discarded by the caller).  Overflow past the finite range is
detected afterwards by `toGoFloat`. -/
def roundToDouble (q : Frac) : Frac :=
  if q.num = 0 then ⟨0, 1⟩
  else
    let aq := if q.num < 0 then fneg q else q
    let e := floorLog2F aq
    let ulpExp := if e - 52 < -1074 then (-1074 : ℤ) else e - 52
    let ulp := pow2 ulpExp
    let rounded := fmulx (fofInt (roundNE (fdivx aq ulp))) ulp
    if q.num < 0 then fneg rounded else rounded

/-- binary64 multiplication: round the exact product. -/
def fmul (x y : Frac) : Frac := roundToDouble (fmulx x y)

/-- Go `math.Mod x y` for finite binary64 inputs: the exact remainder
`x - trunc(x / y) * y` (IEEE fmod is computed exactly, so no rounding
step is needed). -/
def fmodF (x y : Frac) : Frac := fsub x (fmulx (fofInt (ftrunc (fdivx x y))) y)

/-- The binary64 value of the Go literal `0.2`. -/
def dbl02 : Frac := roundToDouble ⟨1, 5⟩

/-- The binary64 value of the Go literal `0.25` (exactly 1/4). -/
def quarterVal : Frac := ⟨1, 4⟩

/-! ### Go float values and the full `strconv.ParseFloat` grammar

`ParseFloat` accepts the (possibly signed) special strings
`inf` / `infinity` / `nan` (case-insensitive), decimal mantissas with an
optional dot and optional signed decimal exponent, and hexadecimal
mantissas with a mandatory binary exponent (`0x1.8p-2`); underscores
are allowed only between digits (Go's `underscoreOK`).  A well-formed
value beyond the finite binary64 range comes back as `±Inf` together
with a range error that Main.go discards; a syntax error comes back as
the value 0, likewise discarded. -/

/-- A binary64 value as Go returns it: finite, an infinity, or NaN. -/
inductive GoFloat where
  | finite (q : Frac)
  | posInf
  | negInf
  | nan
deriving DecidableEq

/-- The float value 0, what `ParseFloat` returns on a syntax error. -/
def goZero : GoFloat := GoFloat.finite (fofInt 0)

/-- Absolute value of a fraction. -/
def fabsF (q : Frac) : Frac := if q.num < 0 then fneg q else q

/-- Classify an exactly-computed value as Go's `ParseFloat` returns
it: round to the nearest binary64 and overflow to the corresponding
infinity when the rounded magnitude reaches `2^1024`. -/
def toGoFloat (q : Frac) : GoFloat :=
  let r := roundToDouble q
  if fle (pow2 1024) (fabsF r) then
    if q.num < 0 then GoFloat.negInf else GoFloat.posInf
  else GoFloat.finite r

/-- Go `math.Mod x y` for a finite non-zero `y` (here always 0.25):
the exact remainder for finite `x`, and NaN when `x` is ±Inf or NaN. -/
def goMod (x : GoFloat) (y : Frac) : GoFloat :=
  match x with
  | GoFloat.finite q => GoFloat.finite (fmodF q y)
  | _ => GoFloat.nan

/-- The float comparison `== 0`: false for ±Inf and for NaN (NaN
compares unequal to everything). -/
def goFloatEqZero (v : GoFloat) : Bool :=
  match v with
  | GoFloat.finite q => fIsZero q
  | _ => false

/-- Multiplication of a Go float by a positive finite constant (here
always the double 0.2): rounded product for finite values, `±Inf` and
NaN are preserved. -/
def goMulPos (x : GoFloat) (y : Frac) : GoFloat :=
  match x with
  | GoFloat.finite q => GoFloat.finite (fmul q y)
  | v => v

/-- Go `int(math.Ceil v)`.  `math.Ceil` is exact on binary64 and the
conversion of an integral in-range value is exact; converting a
non-finite value is implementation-dependent in Go and modelled here
as saturation (0 for NaN) — no theorem depends on those cases. -/
def goCeilInt (v : GoFloat) : ℤ :=
  match v with
  | GoFloat.finite q => fceil q
  | GoFloat.posInf => 2 ^ 63 - 1
  | GoFloat.negInf => -(2 ^ 63)
  | GoFloat.nan => 0

/-- ASCII lower-casing, as Go's parser applies to `x`/`p`/hex digits
and to the special strings. -/
def toLowerAscii (c : Char) : Char :=
  if decide ('A' ≤ c) && decide (c ≤ 'Z') then Char.ofNat (c.toNat + 32) else c

/-- The (possibly signed) special strings `inf`, `infinity` and `nan`,
matched case-insensitively, as Go's `special` does. -/
def parseSpecial (cs : List Char) : Option GoFloat :=
  let (neg, rest) := parseSignGo cs
  let low := rest.map toLowerAscii
  if low == "inf".data || low == "infinity".data then
    some (if neg then GoFloat.negInf else GoFloat.posInf)
  else if low == "nan".data then some GoFloat.nan
  else none

/-- ASCII hex-digit test. -/
def isHexDigitGo (c : Char) : Bool :=
  isDigitGo c ||
  (decide ('a' ≤ toLowerAscii c) && decide (toLowerAscii c ≤ 'f'))

/-- Whether every character is a hex digit. -/
def allHexDigits (cs : List Char) : Bool := cs.all isHexDigitGo

/-- Value of one hex digit. -/
def hexDigitVal (c : Char) : Nat :=
  if isDigitGo c then c.toNat - 48 else (toLowerAscii c).toNat - 87

/-- Hexadecimal value of a digit list. -/
def hexToNat (cs : List Char) : Nat :=
  cs.foldl (fun n c => n * 16 + hexDigitVal c) 0

/-- Remove every underscore (Go's parser skips them in digit
positions and validates their placement separately). -/
def stripUnderscore (cs : List Char) : List Char :=
  cs.filter (fun c => !(c == '_'))

/-- State walk of Go's `underscoreOK`: `saw` is `'^'` at the start,
`'0'` after a digit (or base prefix), `'_'` after an underscore and
`'!'` after anything else; every underscore must sit between digits. -/
def underscoreOKAux (hex : Bool) : Char → List Char → Bool
  | saw, [] => !(saw == '_')
  | saw, c :: rest =>
    if isDigitGo c ||
        (hex && decide ('a' ≤ toLowerAscii c) && decide (toLowerAscii c ≤ 'f')) then
      underscoreOKAux hex '0' rest
    else if c == '_' then
      if saw == '0' then underscoreOKAux hex '_' rest else false
    else if saw == '_' then false
    else underscoreOKAux hex '!' rest

/-- Go `strconv`'s `underscoreOK`: skip an optional sign, treat a
`0x`/`0b`/`0o` base prefix as a digit, then demand that every
underscore be surrounded by digits. -/
def underscoreOK (cs : List Char) : Bool :=
  let cs1 := match cs with
    | '+' :: r => r
    | '-' :: r => r
    | r => r
  match cs1 with
  | '0' :: b :: rest =>
    if toLowerAscii b == 'x' || toLowerAscii b == 'b' || toLowerAscii b == 'o' then
      underscoreOKAux (toLowerAscii b == 'x') '0' rest
    else underscoreOKAux false '^' cs1
  | _ => underscoreOKAux false '^' cs1

/-- Split a character list at the first `e`/`E`, when present. -/
def splitAtExp : List Char → List Char × Option (List Char)
  | [] => ([], none)
  | c :: cs =>
    if c == 'e' || c == 'E' then ([], some cs)
    else
      let (m, e) := splitAtExp cs
      (c :: m, e)

/-- Split a character list at the first dot, when present. -/
def splitAtDot : List Char → List Char × Option (List Char)
  | [] => ([], none)
  | c :: cs =>
    if c == '.' then ([], some cs)
    else
      let (m, e) := splitAtDot cs
      (c :: m, e)

/-- Split a character list at the first `p`/`P` (the mandatory binary
exponent of a hexadecimal float), when present. -/
def splitAtP : List Char → List Char × Option (List Char)
  | [] => ([], none)
  | c :: cs =>
    if c == 'p' || c == 'P' then ([], some cs)
    else
      let (m, e) := splitAtP cs
      (c :: m, e)

/-- Exact value of an unsigned underscore-free decimal mantissa with
optional dot and optional signed decimal exponent; `none` when the
form is not well-formed. -/
def parseDecTail (cs : List Char) : Option Frac :=
  let (mant, expo) := splitAtExp cs
  let (ip, fpOpt) := splitAtDot mant
  let fp := fpOpt.getD []
  if !(allDigits ip && allDigits fp) then none
  else if ip.isEmpty && fp.isEmpty then none
  else
    let mval := fadd (fofNat (digitsToNat ip))
      (fdivx (fofNat (digitsToNat fp)) (fofNat (powNat 10 fp.length)))
    match expo with
    | none => some mval
    | some ecs =>
      let (eneg, eds) := parseSignGo ecs
      if eds.isEmpty || !allDigits eds then none
      else
        let e := digitsToNat eds
        some (if eneg then fdivx mval (fofNat (powNat 10 e))
              else fmulx mval (fofNat (powNat 10 e)))

/-- Exact value of an unsigned underscore-free hexadecimal mantissa
(after the `0x` prefix) with optional dot and its mandatory signed
binary exponent; `none` when the form is not well-formed. -/
def parseHexTail (cs : List Char) : Option Frac :=
  let (mant, expo) := splitAtP cs
  let (ip, fpOpt) := splitAtDot mant
  let fp := fpOpt.getD []
  if !(allHexDigits ip && allHexDigits fp) then none
  else if ip.isEmpty && fp.isEmpty then none
  else
    match expo with
    | none => none
    | some ecs =>
      let (eneg, eds) := parseSignGo ecs
      if eds.isEmpty || !allDigits eds then none
      else
        let mval := fadd (fofNat (hexToNat ip))
          (fdivx (fofNat (hexToNat fp)) (fofNat (powNat 16 fp.length)))
        let e : ℤ := if eneg then -(digitsToNat eds : ℤ) else (digitsToNat eds : ℤ)
        some (fmulx mval (pow2 e))

/-- Exact value of an underscore-free numeric string: optional sign,
then either a hexadecimal float behind a `0x`/`0X` prefix or a plain
decimal; `none` when neither form matches in full. -/
def parsePlainFloat (cs : List Char) : Option Frac :=
  let (neg, cs1) := parseSignGo cs
  let v := match cs1 with
    | '0' :: x :: rest =>
      if toLowerAscii x == 'x' then parseHexTail rest else parseDecTail cs1
    | _ => parseDecTail cs1
  v.map (fun q => if neg then fneg q else q)

/-- Go `strconv.ParseFloat s 64` as its caller sees it: `none` is a
syntax error (Go then returns the value 0 alongside the discarded
error); `some v` is the value Go returns otherwise — the nearest
binary64 for in-range decimals and hex floats (a subnormal or 0 for
underflowing values), `±Inf` for the signed infinity strings and for
well-formed values beyond the finite range (a discarded range error),
and NaN for the NaN strings. -/
def parseFloatGo (s : String) : Option GoFloat :=
  match parseSpecial s.data with
  | some v => some v
  | none =>
    if !underscoreOK s.data then none
    else
      match parsePlainFloat (stripUnderscore s.data) with
      | none => none
      | some q => some (toGoFloat q)

/-! ### The points calculator (Main.go `computePoints`) -/

/-- Points for one item inside the description-length loop of
`computePoints`: the loop body guarded by
`len(strings.TrimSpace(item.Description)) % 3 == 0`, adding
`int(math.Ceil(price * 0.2))` with `price, _ := strconv.ParseFloat`. -/
def itemPoints (item : Item) : ℤ :=
  if goLen (trimSpace item.description.data) % 3 = 0 then
    goCeilInt (goMulPos ((parseFloatGo item.price).getD goZero) dbl02)
  else 0

/-- Main.go `computePoints`, line by line.  The result is `none` when
the Go code panics: `dateParts[2]` indexes out of range whenever
`purchaseDate` splits into fewer than three dash-separated parts.
`timeParts[0]` cannot panic since `strings.Split` never returns an
empty slice. -/
def computePoints (receipt : Receipt) : Option ℤ :=
  let points : ℤ := 0
  let points := receipt.storeName.data.foldl
    (fun p char => if isAlphanumeric char then p + 1 else p) points
  let points := if hasSuffixGo receipt.totalAmount ".00" then points + 50 else points
  let totalValue := (parseFloatGo receipt.totalAmount).getD goZero
  let points := if goFloatEqZero (goMod totalValue quarterVal) then points + 25 else points
  let points := points + ((receipt.purchasedItems.length / 2 * 5 : ℕ) : ℤ)
  let points := receipt.purchasedItems.foldl (fun p item => p + itemPoints item) points
  match (goSplit '-' receipt.dateOfPurchase.data).get? 2 with
  | none => none
  | some dayStr =>
    let day := atoiGo dayStr
    let points := if day % 2 ≠ 0 then points + 6 else points
    let hour := atoiGo ((goSplit ':' receipt.timeOfPurchase.data).headD [])
    let points := if 14 ≤ hour ∧ hour < 16 then points + 10 else points
    some points

/-! ### The six rule contributions, read off the same source lines -/

/-- Retailer-name rule: one point per ASCII alphanumeric rune. -/
def retailerPoints (receipt : Receipt) : ℤ :=
  ((receipt.storeName.data.filter isAlphanumeric).length : ℤ)

/-- Round-dollar rule: 50 points when the textual total ends in `.00`. -/
def roundDollarPoints (receipt : Receipt) : ℤ :=
  if hasSuffixGo receipt.totalAmount ".00" then 50 else 0

/-- Quarter-multiple rule: 25 points when the parsed total (0 on a
parse failure) has zero float remainder modulo 0.25. -/
def quarterPoints (receipt : Receipt) : ℤ :=
  if goFloatEqZero (goMod ((parseFloatGo receipt.totalAmount).getD goZero) quarterVal) then 25
  else 0

/-- Item-pair rule: five points per complete pair of items. -/
def pairPoints (receipt : Receipt) : ℤ :=
  ((receipt.purchasedItems.length / 2 * 5 : ℕ) : ℤ)

/-- Description-length rule: the summed per-item contributions. -/
def descPoints (receipt : Receipt) : ℤ :=
  (receipt.purchasedItems.map itemPoints).sum

/-- Odd-day rule, `none` when `dateParts[2]` would panic. -/
def oddDayPoints (receipt : Receipt) : Option ℤ :=
  match (goSplit '-' receipt.dateOfPurchase.data).get? 2 with
  | none => none
  | some dayStr => some (if atoiGo dayStr % 2 ≠ 0 then 6 else 0)

/-- Afternoon rule: ten points when the parsed hour lies in `[14, 16)`. -/
def afternoonPoints (receipt : Receipt) : ℤ :=
  let hour := atoiGo ((goSplit ':' receipt.timeOfPurchase.data).headD [])
  if 14 ≤ hour ∧ hour < 16 then 10 else 0

/-! ### The receipt store and the submission path -/

/-- The backing map `receiptStorage`; under the single mutex every
operation is a plain map access, modelled functionally. -/
def Storage : Type := String → Option Receipt

/-- The empty store at process start. -/
def emptyStore : Storage := fun _ => none

/-- Map update `receiptStorage[receiptID] = receipt`. -/
def storeInsert (storage : Storage) (newId : String) (receipt : Receipt) : Storage :=
  fun key => if key = newId then some receipt else storage key

/-- Map lookup `receiptStorage[receiptID]`. -/
def storeGet (storage : Storage) (newId : String) : Option Receipt := storage newId

/-- The validation condition of Main.go `processReceipt` (true means
the receipt is rejected with a 400). -/
def invalidCheck (receipt : Receipt) : Bool :=
  receipt.storeName == "" || receipt.dateOfPurchase == "" ||
  receipt.timeOfPurchase == "" || receipt.totalAmount == "" ||
  receipt.purchasedItems.length == 0

/-- Whether a receipt passes the required-field invariant. -/
def validReceipt (receipt : Receipt) : Bool := !invalidCheck receipt

/-- Main.go `processReceipt` after JSON decoding, with the freshly
minted UUID passed in as `newId`: validate, then store and answer the
identifier; on a validation failure answer an error and leave the
store untouched. -/
def processReceipt (storage : Storage) (newId : String) (receipt : Receipt) :
    Except Unit String × Storage :=
  if invalidCheck receipt then (Except.error (), storage)
  else (Except.ok newId, storeInsert storage newId receipt)

/-- Main.go `getPoints` after the identifier has been extracted from
the path: look the receipt up and score it; `Except.error` is the 404. -/
def getPoints (storage : Storage) (receiptID : String) : Except Unit (Option ℤ) :=
  match storeGet storage receiptID with
  | none => Except.error ()
  | some receipt => Except.ok (computePoints receipt)

/-! ### Concrete receipts used to instantiate the theorems -/

/-- A receipt whose `purchaseDate` has no dash: every required field is
non-empty, yet `dateParts[2]` is out of range. -/
def sampleShortDate : Receipt := ⟨"Target", "2022", "13:01", "1.00", [⟨"Gum", "0.99"⟩]⟩

/-- A receipt with total `10.00`. -/
def sampleTotal1000 : Receipt := ⟨"Target", "2022-01-01", "13:01", "10.00", [⟨"Gum", "0.99"⟩]⟩

/-- A receipt with total `35.35`. -/
def sampleTotal3535 : Receipt := ⟨"Target", "2022-01-01", "13:01", "35.35", [⟨"Gum", "0.99"⟩]⟩

/-- The item of the spec's fourth concrete scenario. -/
def mountainDewItem : Item := ⟨"Mountain Dew 12PK", "6.49"⟩

/-- A one-item receipt carrying the Mountain Dew item. -/
def sampleMountainDew : Receipt := ⟨"Target", "2022-01-01", "13:01", "35.35", [mountainDewItem]⟩

/-- A receipt passing the required-field invariant. -/
def sampleValid : Receipt := ⟨"Target", "2022-01-01", "13:01", "35.35", [⟨"Gum", "0.99"⟩]⟩

/-- A receipt with an empty total, violating the invariant. -/
def sampleNoTotal : Receipt := ⟨"Target", "2022-01-01", "13:01", "", [⟨"Gum", "0.99"⟩]⟩

/-- First sample item for the permutation theorem. -/
def itemA : Item := ⟨"Gum", "0.99"⟩

/-- Second sample item for the permutation theorem. -/
def itemB : Item := ⟨"Chips", "2.49"⟩

/-- A two-item receipt for the permutation theorem. -/
def samplePerm : Receipt := ⟨"Target", "2022-01-01", "13:01", "35.35", [itemA, itemB]⟩

/-! ### Helper lemmas -/

/-- The retailer loop of `computePoints` counts the alphanumeric
characters. -/
theorem foldl_count_alnum (l : List Char) (a : ℤ) :
    l.foldl (fun p char => if isAlphanumeric char then p + 1 else p) a
      = a + ((l.filter isAlphanumeric).length : ℤ) := by
  induction l generalizing a with
  | nil => simp
  | cons c l ih =>
    simp only [List.foldl_cons, List.filter_cons]
    cases hc : isAlphanumeric c
    · simp [hc, ih]
    · simp only [hc, if_pos, ih, List.length_cons]
      push_cast
      ring

/-- The item loop of `computePoints` adds the per-item contributions. -/
theorem foldl_add_itemPoints (l : List Item) (a : ℤ) :
    l.foldl (fun p item => p + itemPoints item) a = a + (l.map itemPoints).sum := by
  induction l generalizing a with
  | nil => simp
  | cons i l ih => simp [ih, add_assoc]

/-- `computePoints` decomposes into the six rule contributions of the
spec (`none` exactly when the odd-day rule's indexing panics). -/
theorem computePoints_decomp (receipt : Receipt) :
    computePoints receipt = (oddDayPoints receipt).map (fun d =>
      retailerPoints receipt + roundDollarPoints receipt + quarterPoints receipt +
        pairPoints receipt + descPoints receipt + d + afternoonPoints receipt) := by
  simp only [computePoints, oddDayPoints, retailerPoints, roundDollarPoints, quarterPoints,
    pairPoints, descPoints, afternoonPoints, foldl_count_alnum, foldl_add_itemPoints]
  cases h : (goSplit '-' receipt.dateOfPurchase.data).get? 2 with
  | none => simp [h]
  | some dayStr =>
    simp only [h, Option.map_some']
    split_ifs <;> push_cast <;> ring_nf

/-! ### Claims -/

/-- C1: for every receipt, `computePoints` is the exact sum of the six
rule contributions of spec §4.2 — alphanumeric retailer count, +50 for
a textual `.00` suffix, +25 for a zero float remainder modulo 0.25,
+5 per item pair, per-item `ceil(price * 0.2)` for trimmed description
lengths divisible by 3, +6 for an odd day and +10 for an hour in
`[14, 16)` — with no rule skipped or double-applied (the value is
`none` exactly when the odd-day indexing panics). -/
theorem computePoints_is_sum_of_rules (receipt : Receipt) :
    computePoints receipt = (oddDayPoints receipt).map (fun d =>
      retailerPoints receipt + roundDollarPoints receipt + quarterPoints receipt +
        pairPoints receipt + descPoints receipt + d + afternoonPoints receipt) :=
  computePoints_decomp receipt

/-- C2: contrary to the spec's never-raise guarantee, a receipt that
satisfies the required-field invariant but whose `purchaseDate` does
not split into three dash-separated parts makes `computePoints` panic
(`dateParts[2]` indexes out of range), modelled as `none`. -/
theorem computePoints_panics_on_unsplit_date :
    validReceipt sampleShortDate = true ∧ computePoints sampleShortDate = none := by
  decide

/-- Boundary of the quarter rule at totals Go's `ParseFloat` accepts:
the special strings `Inf` and `NaN`, the underscore literal `1_0.1`
(10.1) and the hexadecimal float `0x1.1p0` (1.0625) all parse, and the
overflowing `1e999` returns `+Inf` with a discarded range error — so
none of them sits in the syntax-error hypothesis of the amended C3
theorem, and the rule pays 0 for each (`math.Mod` of a non-finite
value is NaN, and 10.1 and 1.0625 are no multiples of 0.25), exactly
as the program does. -/
theorem parseFloat_boundary_cases :
    parseFloatGo "Inf" = some GoFloat.posInf ∧
    parseFloatGo "NaN" = some GoFloat.nan ∧
    parseFloatGo "1e999" = some GoFloat.posInf ∧
    parseFloatGo "1_0.1" ≠ none ∧
    parseFloatGo "0x1.1p0" ≠ none ∧
    quarterPoints ⟨"T", "2022-01-01", "13:01", "Inf", [⟨"Gum", "0.99"⟩]⟩ = 0 ∧
    quarterPoints ⟨"T", "2022-01-01", "13:01", "1e999", [⟨"Gum", "0.99"⟩]⟩ = 0 ∧
    quarterPoints ⟨"T", "2022-01-01", "13:01", "1_0.1", [⟨"Gum", "0.99"⟩]⟩ = 0 ∧
    quarterPoints ⟨"T", "2022-01-01", "13:01", "0x1.1p0", [⟨"Gum", "0.99"⟩]⟩ = 0 := by
  decide

/-- C4 counterexample: the item `Mountain Dew 12PK` at price `6.49`
contributes 0 points, not the 2 the claim states — its trimmed
description length is 17 (not 18), which is not a multiple of 3. -/
theorem desc_mountain_dew_cex :
    itemPoints mountainDewItem ≠ 2 ∧ descPoints sampleMountainDew ≠ 2 ∧
      goLen (trimSpace mountainDewItem.description.data) = 17 := by
  decide

/-- C4 (amended): the trimmed description length of
`Mountain Dew 12PK` is 17, which is not a multiple of 3, so the
description-length rule contributes 0 points for this item. -/
theorem desc_mountain_dew_zero :
    goLen (trimSpace mountainDewItem.description.data) = 17 ∧ (17 : ℕ) % 3 ≠ 0 ∧
      itemPoints mountainDewItem = 0 ∧ descPoints sampleMountainDew = 0 := by
  decide

/-- C5: the quarter-multiple rule contributes 25 points exactly when
the parsed total has zero binary64 remainder modulo 0.25; in
particular a total of `10.00` gets the 25 points and a total of
`35.35` gets 0 from this rule. -/
theorem quarter_rule_float_mod (receipt : Receipt) :
    (quarterPoints receipt = 25 ↔
      goFloatEqZero (goMod ((parseFloatGo receipt.totalAmount).getD goZero) quarterVal) = true) ∧
    (receipt.totalAmount = "10.00" → quarterPoints receipt = 25) ∧
    (receipt.totalAmount = "35.35" → quarterPoints receipt = 0) := by
  refine ⟨?_, fun h => ?_, fun h => ?_⟩
  · unfold quarterPoints
    split_ifs with hz
    · simp [hz]
    · simp [hz]
  · simp only [quarterPoints, h]
    decide
  · simp only [quarterPoints, h]
    decide

/-- C5 witness: the characterisation applied to concrete receipts with
totals `10.00` and `35.35`. -/
theorem quarter_rule_float_mod_witness :
    quarterPoints sampleTotal1000 = 25 ∧ quarterPoints sampleTotal3535 = 0 :=
  ⟨(quarter_rule_float_mod sampleTotal1000).2.1 rfl,
    (quarter_rule_float_mod sampleTotal3535).2.2 rfl⟩

/-- C6: the round-dollar rule contributes 50 points exactly when the
textual total ends with the literal suffix `.00`, a purely textual
check; combined with the quarter-multiple rule, a total of `10.00`
contributes 75 points from these two rules. -/
theorem round_dollar_textual (receipt : Receipt) :
    (roundDollarPoints receipt = 50 ↔ hasSuffixGo receipt.totalAmount ".00" = true) ∧
    (receipt.totalAmount = "10.00" →
      roundDollarPoints receipt + quarterPoints receipt = 75) := by
  refine ⟨?_, fun h => ?_⟩
  · unfold roundDollarPoints
    split_ifs with hs
    · simp [hs]
    · simp [hs]
  · simp only [roundDollarPoints, quarterPoints, h]
    decide

/-- C6 witness: both total rules at a concrete receipt with total
`10.00`. -/
theorem round_dollar_textual_witness :
    roundDollarPoints sampleTotal1000 + quarterPoints sampleTotal1000 = 75 :=
  (round_dollar_textual sampleTotal1000).2 rfl

/-- C8: submitting a valid receipt stores it under the minted
identifier, and looking that identifier up returns exactly the same
receipt, every field unchanged. -/
theorem store_round_trip (storage : Storage) (newId : String) (receipt : Receipt)
    (h : validReceipt receipt = true) :
    processReceipt storage newId receipt =
        (Except.ok newId, storeInsert storage newId receipt) ∧
      storeGet (storeInsert storage newId receipt) newId = some receipt := by
  have hc : invalidCheck receipt = false := by
    unfold validReceipt at h
    cases hb : invalidCheck receipt
    · rfl
    · rw [hb] at h
      exact absurd h (by decide)
  refine ⟨?_, ?_⟩
  · simp [processReceipt, hc]
  · simp [storeGet, storeInsert]

/-- C8 witness: the round trip at a concrete valid receipt inserted
into the empty store. -/
theorem store_round_trip_witness :
    processReceipt emptyStore "id-1" sampleValid =
        (Except.ok "id-1", storeInsert emptyStore "id-1" sampleValid) ∧
      storeGet (storeInsert emptyStore "id-1" sampleValid) "id-1" = some sampleValid :=
  store_round_trip emptyStore "id-1" sampleValid (by decide)

/-- C9: a submitted receipt that fails the required-field invariant is
rejected before the core: no identifier is answered and the store is
returned unchanged. -/
theorem invalid_receipt_rejected (storage : Storage) (newId : String) (receipt : Receipt)
    (h : validReceipt receipt = false) :
    processReceipt storage newId receipt = (Except.error (), storage) := by
  have hc : invalidCheck receipt = true := by
    unfold validReceipt at h
    cases hb : invalidCheck receipt
    · rw [hb] at h
      exact absurd h (by decide)
    · rfl
  simp [processReceipt, hc]

/-- C9 witness: rejection of a concrete receipt with an empty total,
leaving the empty store unchanged. -/
theorem invalid_receipt_rejected_witness :
    processReceipt emptyStore "id-2" sampleNoTotal = (Except.error (), emptyStore) :=
  invalid_receipt_rejected emptyStore "id-2" sampleNoTotal (by decide)

/-- C10: permuting the items list of a receipt never changes its
score — the calculator reads the items only through their count and
the sum of the per-item contributions. -/
theorem score_perm_invariant (receipt : Receipt) (items2 : List Item)
    (h : receipt.purchasedItems.Perm items2) :
    computePoints { receipt with purchasedItems := items2 } = computePoints receipt := by
  rw [computePoints_decomp, computePoints_decomp]
  have h1 : retailerPoints { receipt with purchasedItems := items2 } =
      retailerPoints receipt := rfl
  have h2 : roundDollarPoints { receipt with purchasedItems := items2 } =
      roundDollarPoints receipt := rfl
  have h3 : quarterPoints { receipt with purchasedItems := items2 } =
      quarterPoints receipt := rfl
  have h4 : oddDayPoints { receipt with purchasedItems := items2 } =
      oddDayPoints receipt := rfl
  have h5 : afternoonPoints { receipt with purchasedItems := items2 } =
      afternoonPoints receipt := rfl
  have h6 : pairPoints { receipt with purchasedItems := items2 } = pairPoints receipt := by
    unfold pairPoints
    rw [h.length_eq]
  have h7 : descPoints { receipt with purchasedItems := items2 } = descPoints receipt := by
    unfold descPoints
    show (items2.map itemPoints).sum = (receipt.purchasedItems.map itemPoints).sum
    exact ((h.map itemPoints).sum_eq).symm
  rw [h1, h2, h3, h4, h5, h6, h7]

/-- C10 witness: swapping the two items of a concrete receipt leaves
its score unchanged. -/
theorem score_perm_invariant_witness :
    computePoints { samplePerm with purchasedItems := [itemB, itemA] } =
      computePoints samplePerm :=
  score_perm_invariant samplePerm [itemB, itemA] (List.Perm.swap itemB itemA [])
